import Mathlib

/-!
Shallow embedding of the ipproxy repository (Go) for verification of its
natural-language specification.  The definitions below mirror the source
files `ipproxy.go`, `tcp.go` and the base-connection file: pure functions
become Lean functions, the stateful demultiplexer / reaper / pump loops
become explicit state passing driven by oracle lists that resolve the
environment's choices (read results, write results, accept results), and
Go maps become association lists.  Durations are modelled in nanoseconds
as in Go's `time.Duration`.
-/

namespace IpProxy

/-- Nanoseconds per millisecond, mirrors Go `time.Millisecond`. -/
def millisecond : Int := 1000000
/-- Nanoseconds per second, mirrors Go `time.Second`. -/
def second : Int := 1000000000

/-- `DefaultMTU = 1500` from `ipproxy.go`. -/
def DefaultMTU : Int := 1500
/-- `DefaultOutboundBufferDepth = 10000` from `ipproxy.go`. -/
def DefaultOutboundBufferDepth : Int := 10000
/-- `DefaultIdleTimeout = 65 * time.Second` from `ipproxy.go`. -/
def DefaultIdleTimeout : Int := 65 * second
/-- `DefaultTCPConnectBacklog = 10` from `ipproxy.go`. -/
def DefaultTCPConnectBacklog : Int := 10
/-- `DefaultStatsInterval = 15 * time.Second` from `ipproxy.go`. -/
def DefaultStatsInterval : Int := 15 * second

/-- `IPProtocolICMP = 1` from `ipproxy.go`. -/
def IPProtocolICMP : Nat := 1
/-- `IPProtocolTCP = 6` from `ipproxy.go`. -/
def IPProtocolTCP : Nat := 6
/-- `IPProtocolUDP = 17` from `ipproxy.go`. -/
def IPProtocolUDP : Nat := 17

/-- A dial function value: either the `net.Dialer`-based default installed by
`ApplyDefaults`, or a caller-supplied function (identified by a tag). -/
inductive Dialer where
  | netDialerBased
  | custom (id : Nat)
deriving DecidableEq, Repr

/-- The `Opts` struct from `ipproxy.go`.  Numeric fields are Go `int` /
`time.Duration` values (modelled as `Int`, durations in nanoseconds); the
dial functions are `Option Dialer`, with `none` standing for Go `nil`. -/
structure Opts where
  MTU : Int
  OutboundBufferDepth : Int
  IdleTimeout : Int
  TCPConnectBacklog : Int
  StatsInterval : Int
  DialTCP : Option Dialer
  DialUDP : Option Dialer
deriving DecidableEq, Repr

/-- The zero-valued `Opts{}` literal allocated by `ApplyDefaults` when the
receiver is nil. -/
def Opts.zero : Opts :=
  { MTU := 0, OutboundBufferDepth := 0, IdleTimeout := 0,
    TCPConnectBacklog := 0, StatsInterval := 0,
    DialTCP := none, DialUDP := none }

/-- `(*Opts).ApplyDefaults` from `ipproxy.go` lines 71-105.  The receiver is
`Option Opts` because Go allows a nil receiver, which is replaced by a fresh
zero `Opts`; each non-positive numeric field and each nil dial function is
then replaced by its default, in source order. -/
def ApplyDefaults (optsIn : Option Opts) : Opts :=
  let opts := match optsIn with
    | none => Opts.zero
    | some o => o
  let opts := if opts.MTU ≤ 0 then { opts with MTU := DefaultMTU } else opts
  let opts := if opts.OutboundBufferDepth ≤ 0 then
      { opts with OutboundBufferDepth := DefaultOutboundBufferDepth } else opts
  let opts := if opts.IdleTimeout ≤ 0 then
      { opts with IdleTimeout := DefaultIdleTimeout } else opts
  let opts := if opts.TCPConnectBacklog ≤ 0 then
      { opts with TCPConnectBacklog := DefaultTCPConnectBacklog } else opts
  let opts := if opts.StatsInterval ≤ 0 then
      { opts with StatsInterval := DefaultStatsInterval } else opts
  let opts := if opts.DialTCP = none then
      { opts with DialTCP := some Dialer.netDialerBased } else opts
  let opts := if opts.DialUDP = none then
      { opts with DialUDP := some Dialer.netDialerBased } else opts
  opts

/-- The fields of the `proxy` struct that `New` (`ipproxy.go` lines 165-189)
initializes and that are observable at construction time: the defaulted
options, the zero counters and the two empty destination maps.  The
`downstream` read-writer is an opaque handle. -/
structure ProxyInit where
  opts : Opts
  downstream : Nat
  acceptedPackets : Int
  rejectedPackets : Int
  tcpOriginsEmpty : Bool
  udpConnsEmpty : Bool
deriving DecidableEq, Repr

/-- `New` from `ipproxy.go` lines 165-189: applies defaults to `opts`
(tolerating nil), allocates the proxy value and returns it together with a
nil error.  The first component is `Option ProxyInit` mirroring the Go
pointer result (`none` would be a nil Proxy); the second is the returned
error. -/
def New (downstream : Nat) (optsIn : Option Opts) : Option ProxyInit × Option String :=
  let opts := ApplyDefaults optsIn
  (some { opts := opts, downstream := downstream,
          acceptedPackets := 0, rejectedPackets := 0,
          tcpOriginsEmpty := true, udpConnsEmpty := true }, none)

end IpProxy

namespace IpProxy

/-- `maxWriteWait = 30 * time.Millisecond` from the base-connection file,
expressed in milliseconds. -/
def maxWriteWaitMs : Nat := 30

/-- Result of one `conn.ep.Write` call, the oracle entry resolving what the
userspace endpoint does on that attempt: a successful write of `n` bytes,
`tcpip.ErrWouldBlock`, or any other write error. -/
inductive WriteRes where
  | ok (n : Nat)
  | wouldBlock
  | werr
deriving DecidableEq, Repr

/-- Terminal outcome of `writeToDownstream`: `success` is the `return nil`
path, `writeError` the non-WouldBlock error path, `outOfOracle` means the
oracle was exhausted while the loop was still running. -/
inductive WtdResult where
  | success
  | writeError
  | outOfOracle
deriving DecidableEq, Repr

/-- Observable outcome of a `writeToDownstream` call: the terminal result,
the list of back-off events — one `(i, waitTime)` pair per WouldBlock, where
`i` is the loop counter at that attempt and `waitTime` the computed sleep in
milliseconds (a `waitTime` of 0 means no sleep is performed) — and the total
number of payload bytes delivered by successful writes. -/
structure WtdOut where
  res : WtdResult
  blocks : List (Nat × Nat)
  delivered : Nat
deriving DecidableEq, Repr

/-- `(*baseConn).writeToDownstream` from the base-connection file, lines
140-165.  The loop counter `i` starts at 0 and is incremented on every
iteration (`for i := time.Duration(0); true; i++`), never reset; on a
successful write the slice advances by the bytes written (`b = b[n:]`) and
the loop returns nil once the slice is empty; on WouldBlock the computed
wait is `i * 1ms` capped at `maxWriteWait`; on any other error the error is
returned. -/
def writeToDownstream : List WriteRes → List Nat → Nat → WtdOut
  | [], _, _ => ⟨WtdResult.outOfOracle, [], 0⟩
  | WriteRes.ok n :: rest, b, i =>
      let consumed := min n b.length
      let b2 := b.drop n
      if b2 = [] then ⟨WtdResult.success, [], consumed⟩
      else
        let out := writeToDownstream rest b2 (i + 1)
        ⟨out.res, out.blocks, consumed + out.delivered⟩
  | WriteRes.wouldBlock :: rest, b, i =>
      let waitTime := min (i * 1) maxWriteWaitMs
      let out := writeToDownstream rest b (i + 1)
      ⟨out.res, (i, waitTime) :: out.blocks, out.delivered⟩
  | WriteRes.werr :: _, _, _ => ⟨WtdResult.writeError, [], 0⟩

/-- The endpoint write loop as the specification's words describe it: the
same loop as `writeToDownstream`, except that the back-off counter counts
attempts *since the last successful progress*, i.e. it is reset to 0 after
every successful write instead of running on from the start of the call. -/
def writeToDownstreamClaimed : List WriteRes → List Nat → Nat → WtdOut
  | [], _, _ => ⟨WtdResult.outOfOracle, [], 0⟩
  | WriteRes.ok n :: rest, b, _ =>
      let consumed := min n b.length
      let b2 := b.drop n
      if b2 = [] then ⟨WtdResult.success, [], consumed⟩
      else
        let out := writeToDownstreamClaimed rest b2 0
        ⟨out.res, out.blocks, consumed + out.delivered⟩
  | WriteRes.wouldBlock :: rest, b, i =>
      let waitTime := min (i * 1) maxWriteWaitMs
      let out := writeToDownstreamClaimed rest b (i + 1)
      ⟨out.res, (i, waitTime) :: out.blocks, out.delivered⟩
  | WriteRes.werr :: _, _, _ => ⟨WtdResult.writeError, [], 0⟩

/-- Every back-off event of `writeToDownstream` records a loop counter at
least the starting counter, its wait is `min (i * 1ms) 30ms`, and if the
loop returns success the delivered bytes equal the input length. -/
theorem writeToDownstream_props :
    ∀ (oracle : List WriteRes) (b : List Nat) (i : Nat),
      (∀ p ∈ (writeToDownstream oracle b i).blocks,
          i ≤ p.1 ∧ p.2 = min (p.1 * 1) maxWriteWaitMs) ∧
      ((writeToDownstream oracle b i).res = WtdResult.success →
        (writeToDownstream oracle b i).delivered = b.length) := by
  intro oracle
  induction oracle with
  | nil =>
      intro b i
      refine ⟨by intro p hp; simp [writeToDownstream] at hp, ?_⟩
      intro h
      simp [writeToDownstream] at h
  | cons step rest ih =>
      intro b i
      cases step with
      | ok n =>
          by_cases hb : b.drop n = []
          · refine ⟨?_, ?_⟩
            · intro p hp
              simp [writeToDownstream, hb] at hp
            · intro _
              have hlen : b.length - n = 0 := by
                have := congrArg List.length hb
                simpa using this
              simp [writeToDownstream, hb]
              omega
          · refine ⟨?_, ?_⟩
            · intro p hp
              rw [show writeToDownstream (WriteRes.ok n :: rest) b i =
                  ⟨(writeToDownstream rest (b.drop n) (i + 1)).res,
                   (writeToDownstream rest (b.drop n) (i + 1)).blocks,
                   min n b.length +
                     (writeToDownstream rest (b.drop n) (i + 1)).delivered⟩ from by
                simp [writeToDownstream, hb]] at hp
              have := (ih (b.drop n) (i + 1)).1 p hp
              omega
            · intro h
              have hres : (writeToDownstream rest (b.drop n) (i + 1)).res =
                  WtdResult.success := by
                simpa [writeToDownstream, hb] using h
              have hdel := (ih (b.drop n) (i + 1)).2 hres
              have hlt : n < b.length := by
                by_contra hge
                have hge2 : b.length ≤ n := by omega
                have : (b.drop n).length = 0 := by simp; omega
                exact hb (List.eq_nil_of_length_eq_zero this)
              simp [writeToDownstream, hb, hdel]
              omega
      | wouldBlock =>
          refine ⟨?_, ?_⟩
          · intro p hp
            rw [show writeToDownstream (WriteRes.wouldBlock :: rest) b i =
                ⟨(writeToDownstream rest b (i + 1)).res,
                 (i, min (i * 1) maxWriteWaitMs) ::
                   (writeToDownstream rest b (i + 1)).blocks,
                 (writeToDownstream rest b (i + 1)).delivered⟩ from by
              simp [writeToDownstream]] at hp
            rcases List.mem_cons.mp hp with hp1 | hp1
            · subst hp1; exact ⟨Nat.le_refl i, rfl⟩
            · have := (ih b (i + 1)).1 p hp1
              omega
          · intro h
            have hres : (writeToDownstream rest b (i + 1)).res =
                WtdResult.success := by
              simpa [writeToDownstream] using h
            simpa [writeToDownstream] using (ih b (i + 1)).2 hres
      | werr =>
          refine ⟨by intro p hp; simp [writeToDownstream] at hp, ?_⟩
          intro h
          simp [writeToDownstream] at h

/-- The loop counters recorded by `writeToDownstream` strictly increase over
the whole call: the counter is never reset, not even by successful
progress. -/
theorem writeToDownstream_counter_monotone :
    ∀ (oracle : List WriteRes) (b : List Nat) (i : Nat),
      List.Chain' (· < ·) ((writeToDownstream oracle b i).blocks.map Prod.fst) := by
  intro oracle
  induction oracle with
  | nil => intro b i; simp [writeToDownstream]
  | cons step rest ih =>
      intro b i
      cases step with
      | ok n =>
          by_cases hb : b.drop n = []
          · simp [writeToDownstream, hb]
          · simpa [writeToDownstream, hb] using ih (b.drop n) (i + 1)
      | wouldBlock =>
          have hchain := ih b (i + 1)
          have hblocks : (writeToDownstream (WriteRes.wouldBlock :: rest) b i).blocks =
              (i, min (i * 1) maxWriteWaitMs) ::
                (writeToDownstream rest b (i + 1)).blocks := by
            simp [writeToDownstream]
          rw [hblocks, List.map_cons]
          refine List.chain'_cons'.mpr ⟨?_, hchain⟩
          intro x hx
          cases hl : (writeToDownstream rest b (i + 1)).blocks with
          | nil => rw [hl] at hx; simp at hx
          | cons q t =>
              rw [hl] at hx
              simp only [List.map_cons, List.head?_cons, Option.mem_def,
                Option.some_inj] at hx
              have hq : q ∈ (writeToDownstream rest b (i + 1)).blocks := by
                rw [hl]; exact List.mem_cons_self _ _
              have hle := ((writeToDownstream_props rest b (i + 1)).1 q hq).1
              omega
      | werr => simp [writeToDownstream]

/-- C2 counterexample: the claim states the back-off counter `i` counts
attempts since the last successful progress.  On the write-result sequence
[WouldBlock, WouldBlock, ok 1, WouldBlock, ok 1] with a 2-byte payload, the
source loop performs back-off `(i = 3, wait 3 ms)` on the third WouldBlock
(the counter keeps running across the successful partial write), while the
claimed counter-since-progress schedule gives `(i = 0, wait 0 ms)`; both
runs deliver all bytes, so only the back-off schedule differs. -/
theorem writeToDownstream_backoff_counterexample :
    (writeToDownstream [WriteRes.wouldBlock, WriteRes.wouldBlock, WriteRes.ok 1,
        WriteRes.wouldBlock, WriteRes.ok 1] [7, 8] 0).blocks ≠
      (writeToDownstreamClaimed [WriteRes.wouldBlock, WriteRes.wouldBlock, WriteRes.ok 1,
        WriteRes.wouldBlock, WriteRes.ok 1] [7, 8] 0).blocks ∧
    (writeToDownstream [WriteRes.wouldBlock, WriteRes.wouldBlock, WriteRes.ok 1,
        WriteRes.wouldBlock, WriteRes.ok 1] [7, 8] 0).blocks = [(0, 0), (1, 1), (3, 3)] ∧
    (writeToDownstreamClaimed [WriteRes.wouldBlock, WriteRes.wouldBlock, WriteRes.ok 1,
        WriteRes.wouldBlock, WriteRes.ok 1] [7, 8] 0).blocks = [(0, 0), (1, 1), (0, 0)] ∧
    (writeToDownstream [WriteRes.wouldBlock, WriteRes.wouldBlock, WriteRes.ok 1,
        WriteRes.wouldBlock, WriteRes.ok 1] [7, 8] 0).res = WtdResult.success := by
  decide

/-- C2 (amended): in the endpoint write loop, a short write advances the
slice by the bytes written; each WouldBlock backs off by
`min(i * 1 ms, 30 ms)` where `i` is the loop counter counting attempts since
the start of the call (never reset, so the recorded counters strictly
increase across the whole call and every wait is at most 30 ms); and if the
loop returns success, the total bytes delivered equal the input length. -/
theorem writeToDownstream_backoff_amended :
    ∀ (oracle : List WriteRes) (b : List Nat),
      ((writeToDownstream oracle b 0).res = WtdResult.success →
        (writeToDownstream oracle b 0).delivered = b.length) ∧
      (∀ p ∈ (writeToDownstream oracle b 0).blocks,
        p.2 = min (p.1 * 1) maxWriteWaitMs ∧ p.2 ≤ 30) ∧
      List.Chain' (· < ·) ((writeToDownstream oracle b 0).blocks.map Prod.fst) ∧
      (∀ (n : Nat) (rest : List WriteRes) (i : Nat), b.drop n ≠ [] →
        writeToDownstream (WriteRes.ok n :: rest) b i =
          ⟨(writeToDownstream rest (b.drop n) (i + 1)).res,
           (writeToDownstream rest (b.drop n) (i + 1)).blocks,
           min n b.length + (writeToDownstream rest (b.drop n) (i + 1)).delivered⟩) := by
  intro oracle b
  refine ⟨(writeToDownstream_props oracle b 0).2, ?_,
    writeToDownstream_counter_monotone oracle b 0, ?_⟩
  · intro p hp
    have h := (writeToDownstream_props oracle b 0).1 p hp
    refine ⟨h.2, ?_⟩
    rw [h.2]
    exact Nat.min_le_right (p.1 * 1) 30
  · intro n rest i hne
    simp [writeToDownstream, hne]

/-- Witness for `writeToDownstream_backoff_amended` at a concrete input with
a partial then a completing write. -/
theorem writeToDownstream_backoff_amended_witness :
    (writeToDownstream [WriteRes.wouldBlock, WriteRes.ok 2] [5, 6] 0).res =
      WtdResult.success ∧
    (writeToDownstream [WriteRes.wouldBlock, WriteRes.ok 2] [5, 6] 0).delivered =
      ([5, 6] : List Nat).length :=
  ⟨by decide,
   (writeToDownstream_backoff_amended [WriteRes.wouldBlock, WriteRes.ok 2] [5, 6]).1
     (by decide)⟩

/-- The destination-address key type `addr` of the repository: an IPv4
address string and a port, with structural equality, keying the
`tcpConnTrack` map. -/
structure addr where
  ip : String
  port : Nat
deriving DecidableEq, Repr

/-- The reaper-relevant state of one tracked connection: its `lastActive`
timestamp (nanoseconds, written by `markActive`, read by
`timeSinceLastActive`). -/
structure ConnState where
  lastActive : Int
deriving DecidableEq, Repr

/-- The reaper-relevant state of one `tcpDest`: its own `lastActive` and its
`conns` map from downstream client address (client ids as `Nat`) to
connection state. -/
structure DestState where
  lastActive : Int
  conns : List (Nat × ConnState)
deriving DecidableEq, Repr

/-- The proxy state the TCP reaper touches: the current time `now`, the
configured `IdleTimeout` and the `tcpConnTrack` map (an association list
standing for the Go map). -/
structure ReapState where
  now : Int
  idleTimeout : Int
  tcpConnTrack : List (addr × DestState)
deriving DecidableEq, Repr

/-- An observable action of the reap body, in program order:
`asyncCloseConn` is the asynchronous `go conn.Close()`; `removeDest` is
`delete(p.tcpConnTrack, a)` under the map mutex; `syncCloseDest` is the
synchronous `dest.Close()` call that blocks the reaper until the
destination's finalizer completes. -/
inductive ReapEvent where
  | asyncCloseConn (dest : addr) (client : Nat)
  | removeDest (a : addr)
  | syncCloseDest (a : addr)
deriving DecidableEq, Repr

/-- Whether a reap event lets the reaper proceed without blocking on a
finalizer: asynchronous closes and map removals do, a synchronous
destination close does not. -/
def ReapEvent.isNonBlockingClose : ReapEvent → Bool
  | ReapEvent.asyncCloseConn _ _ => true
  | ReapEvent.removeDest _ => true
  | ReapEvent.syncCloseDest _ => false

/-- The per-destination body of the reap pass, `tcp.go` lines 131-149:
snapshot the `conns` values under `connsMx`; if the snapshot is non-empty,
iterate the live `dest.conns` map and start `go conn.Close()` for every
connection whose `timeSinceLastActive` exceeds the idle timeout; otherwise,
if the destination itself is idle, delete it from `tcpConnTrack` and call
`dest.Close()` synchronously.  Returns whether the destination is removed,
and the emitted events in order. -/
def reapDest (now idleTimeout : Int) (a : addr) (dest : DestState) :
    Bool × List ReapEvent :=
  let conns := dest.conns.map Prod.snd
  if conns.length > 0 then
    (false, dest.conns.filterMap fun c =>
      if now - c.2.lastActive > idleTimeout then
        some (ReapEvent.asyncCloseConn a c.1)
      else none)
  else if now - dest.lastActive > idleTimeout then
    (true, [ReapEvent.removeDest a, ReapEvent.syncCloseDest a])
  else
    (false, [])

/-- One full pass of the body of `reapTCP`'s loop (`tcp.go` lines 125-150):
snapshot `tcpConnTrack` under its mutex, process every destination with
`reapDest`, and delete the reaped destinations from the map. -/
def reapTCPPass (s : ReapState) : ReapState × List ReapEvent :=
  let dests := s.tcpConnTrack
  let evs := (dests.map fun ad => (reapDest s.now s.idleTimeout ad.1 ad.2).2).flatten
  ({ s with tcpConnTrack :=
      s.tcpConnTrack.filter fun ad => !(reapDest s.now s.idleTimeout ad.1 ad.2).1 },
   evs)

/-- Whether `reapTCP` has returned to its caller. -/
inductive ReapStatus where
  | returned
  | stillRunning
deriving DecidableEq, Repr

/-- `(*proxy).reapTCP` from `tcp.go` lines 122-152: an unconditional
`for { time.Sleep(1 * time.Second); ...pass... }` loop containing no
`break` and no `return`; `fuel` bounds how many iterations are unfolded,
and `stillRunning` records that the loop was still going when the fuel ran
out. -/
def reapTCP : Nat → ReapState → ReapStatus × ReapState
  | 0, s => (ReapStatus.stillRunning, s)
  | fuel + 1, s =>
      let s1 := { s with now := s.now + second }
      reapTCP fuel (reapTCPPass s1).1

/-- C1: the demux tick handler in `copyToUpstream` calls `p.reapTCP()`
expecting a single pass, but `reapTCP` never returns: for every amount of
fuel and every proxy state, unfolding the loop leaves it still running, so
after the first 1-second tick the demux task never again selects on the
inbound packet channel or the close signal. -/
theorem reapTCP_never_returns :
    ∀ (fuel : Nat) (s : ReapState), (reapTCP fuel s).1 = ReapStatus.stillRunning := by
  intro fuel
  induction fuel with
  | zero => intro s; rfl
  | succ n ih => intro s; exact ih _

/-- A proxy reap state holding a single destination with zero clients that
has been idle beyond its timeout (now 100 s, idle timeout 65 s, destination
last active at 0). -/
def reapStateOneEmptyDest : ReapState :=
  { now := 100 * second
    idleTimeout := 65 * second
    tcpConnTrack := [(⟨"10.0.0.1", 80⟩, { lastActive := 0, conns := [] })] }

/-- A proxy reap state with one destination holding one idle connection
(client 7, last active at 0) and a second destination with zero clients,
both idle beyond the 65 s timeout at time 100 s. -/
def reapStateTwoDests : ReapState :=
  { now := 100 * second
    idleTimeout := 65 * second
    tcpConnTrack :=
      [(⟨"10.0.0.1", 80⟩, { lastActive := 0, conns := [(7, ⟨0⟩)] }),
       (⟨"10.0.0.2", 443⟩, { lastActive := 0, conns := [] })] }

/-- C3 counterexample: the claim says the reaper never blocks on a
finalizer, including destination closes.  At a state holding a single
destination with zero clients, idle beyond the timeout, the reap pass
removes the destination and then calls `dest.Close()` synchronously, so not
every close performed by the pass is non-blocking. -/
theorem reapTCPPass_sync_close_counterexample :
    ¬ (∀ e ∈ (reapTCPPass reapStateOneEmptyDest).2, e.isNonBlockingClose = true) := by
  intro h
  have := h (ReapEvent.syncCloseDest ⟨"10.0.0.1", 80⟩) (by
    simp [reapTCPPass, reapDest, reapStateOneEmptyDest, second])
  simp [ReapEvent.isNonBlockingClose] at this

/-- C3 (amended): on each reaper pass, for every TCP destination in the
snapshot: the client list is snapshotted under its mutex and the snapshot
decides whether the destination has clients, while the close loop iterates
the live `conns` map; every connection idle longer than the idle timeout
gets an asynchronous close; and a destination with zero clients whose own
`last_active` exceeds the idle timeout is removed from the map and closed
synchronously — the reaper can block on a destination finalizer. -/
theorem reapTCPPass_amended :
    ∀ (s : ReapState) (a : addr) (d : DestState),
      (a, d) ∈ s.tcpConnTrack →
      (∀ c ∈ d.conns, s.now - c.2.lastActive > s.idleTimeout →
        ReapEvent.asyncCloseConn a c.1 ∈ (reapTCPPass s).2) ∧
      (d.conns = [] → s.now - d.lastActive > s.idleTimeout →
        ReapEvent.removeDest a ∈ (reapTCPPass s).2 ∧
        ReapEvent.syncCloseDest a ∈ (reapTCPPass s).2 ∧
        (a, d) ∉ (reapTCPPass s).1.tcpConnTrack) := by
  intro s a d hmem
  have hjoin : ∀ e, e ∈ (reapDest s.now s.idleTimeout a d).2 →
      e ∈ (reapTCPPass s).2 := by
    intro e he
    simp only [reapTCPPass, List.mem_flatten, List.mem_map]
    exact ⟨(reapDest s.now s.idleTimeout a d).2, ⟨(a, d), hmem, rfl⟩, he⟩
  constructor
  · intro c hc hidle
    apply hjoin
    have hne : (d.conns.map Prod.snd).length > 0 := by
      simp only [List.length_map]
      exact List.length_pos_of_mem hc
    simp only [reapDest, hne, if_pos]
    exact List.mem_filterMap.mpr ⟨c, hc, by simp [hidle]⟩
  · intro hempty hidle
    have hdest : reapDest s.now s.idleTimeout a d =
        (true, [ReapEvent.removeDest a, ReapEvent.syncCloseDest a]) := by
      simp [reapDest, hempty, hidle]
    refine ⟨hjoin _ (by rw [hdest]; simp), hjoin _ (by rw [hdest]; simp), ?_⟩
    intro hin
    have := (List.mem_filter.mp hin).2
    rw [hdest] at this
    simp at this

/-- Witness for `reapTCPPass_amended`: a state with one destination holding
an idle connection and one empty idle destination; the idle connection gets
an asynchronous close, the empty destination is removed and closed
synchronously. -/
theorem reapTCPPass_amended_witness :
    ReapEvent.asyncCloseConn ⟨"10.0.0.1", 80⟩ 7 ∈ (reapTCPPass reapStateTwoDests).2 ∧
    ReapEvent.syncCloseDest ⟨"10.0.0.2", 443⟩ ∈ (reapTCPPass reapStateTwoDests).2 := by
  constructor
  · exact (reapTCPPass_amended reapStateTwoDests
      ⟨"10.0.0.1", 80⟩ { lastActive := 0, conns := [(7, ⟨0⟩)] }
      (by simp [reapStateTwoDests])).1 (7, ⟨0⟩) (List.mem_cons_self _ _)
      (by simp [reapStateTwoDests, second])
  · exact ((reapTCPPass_amended reapStateTwoDests
      ⟨"10.0.0.2", 443⟩ { lastActive := 0, conns := [] }
      (by simp [reapStateTwoDests])).2 rfl
      (by simp [reapStateTwoDests, second])).2.1

/-- Association-list lookup standing for Go map indexing
(`p.tcpConnTrack[dstAddr]`, nil when absent). -/
def alookup : List (addr × Nat) → addr → Option Nat
  | [], _ => none
  | (k, v) :: rest, a => if k = a then some v else alookup rest a

/-- The demux-side state of the TCP destination map: destinations are
identified by their creation id, `nextId` supplies fresh ids, and
`tcpConnTrack` is the map from destination address to destination. -/
structure TcpTrackState where
  nextId : Nat
  tcpConnTrack : List (addr × Nat)
deriving DecidableEq, Repr

/-- `(*proxy).onTCP` from `tcp.go` lines 17-35, as executed by the single
demux task: look up `tcpConnTrack[dstAddr]` under the mutex; if absent,
run `startTCPDest` — `createOk` resolves whether its NIC creation, address
assignment, init and listen succeed — and on success insert the new
destination under the mutex (on failure the error is logged and the map is
unchanged); finally the packet is injected. -/
def onTCP (s : TcpTrackState) (dst : addr) (createOk : Bool) : TcpTrackState :=
  match alookup s.tcpConnTrack dst with
  | some _ => s
  | none =>
      if createOk then
        { nextId := s.nextId + 1, tcpConnTrack := (dst, s.nextId) :: s.tcpConnTrack }
      else s

/-- The demux task handling a sequence of TCP packets, each carried with its
`startTCPDest` outcome. -/
def processTCPPackets (s : TcpTrackState) : List (addr × Bool) → TcpTrackState
  | [] => s
  | pkt :: rest => processTCPPackets (onTCP s pkt.1 pkt.2) rest

/-- `alookup` returns `none` exactly when the key is absent. -/
theorem alookup_eq_none :
    ∀ (l : List (addr × Nat)) (a : addr),
      alookup l a = none ↔ a ∉ l.map Prod.fst := by
  intro l a
  induction l with
  | nil => simp [alookup]
  | cons e rest ih =>
      by_cases h : e.1 = a
      · simp [alookup, h]
      · simp only [alookup, h, if_false, List.map_cons, List.mem_cons]
        rw [ih]
        constructor
        · intro hn hc
          rcases hc with hc | hc
          · exact h hc.symm
          · exact hn hc
        · intro hn
          exact fun hc => hn (Or.inr hc)

/-- `onTCP` keeps the destination keys duplicate-free. -/
theorem onTCP_preserves_nodup (s : TcpTrackState) (dst : addr) (createOk : Bool)
    (h : (s.tcpConnTrack.map Prod.fst).Nodup) :
    ((onTCP s dst createOk).tcpConnTrack.map Prod.fst).Nodup := by
  cases hl : alookup s.tcpConnTrack dst with
  | some v => simpa [onTCP, hl] using h
  | none =>
      cases createOk with
      | false => simpa [onTCP, hl] using h
      | true =>
          simp only [onTCP, hl, if_pos, List.map_cons]
          exact List.nodup_cons.mpr ⟨(alookup_eq_none _ _).mp hl, h⟩

/-- `onTCP` never removes or replaces an existing map entry. -/
theorem onTCP_preserves_mem (s : TcpTrackState) (dst : addr) (createOk : Bool)
    (e : addr × Nat) (he : e ∈ s.tcpConnTrack) :
    e ∈ (onTCP s dst createOk).tcpConnTrack := by
  cases hl : alookup s.tcpConnTrack dst with
  | some v => simpa [onTCP, hl] using he
  | none =>
      cases createOk with
      | false => simpa [onTCP, hl] using he
      | true =>
          simp only [onTCP, hl, if_pos, List.mem_cons]
          exact Or.inr he

/-- C4: handling TCP packets creates a destination only when the key is
absent, so across any packet sequence the destination keys stay
duplicate-free, an existing origin for a key is never replaced by a second
one, and every destination key holds at most one origin. -/
theorem onTCP_unique_origin :
    ∀ (pkts : List (addr × Bool)) (s : TcpTrackState) (a : addr) (id : Nat),
      (s.tcpConnTrack.map Prod.fst).Nodup →
      ((processTCPPackets s pkts).tcpConnTrack.map Prod.fst).Nodup ∧
      ((a, id) ∈ s.tcpConnTrack → (a, id) ∈ (processTCPPackets s pkts).tcpConnTrack) ∧
      ((processTCPPackets s pkts).tcpConnTrack.map Prod.fst).count a ≤ 1 := by
  intro pkts
  induction pkts with
  | nil =>
      intro s a id h
      exact ⟨h, fun hm => hm, List.nodup_iff_count_le_one.mp h a⟩
  | cons pkt rest ih =>
      intro s a id h
      have hstep := onTCP_preserves_nodup s pkt.1 pkt.2 h
      obtain ⟨h1, h2, h3⟩ := ih (onTCP s pkt.1 pkt.2) a id hstep
      exact ⟨h1,
        fun hm => h2 (onTCP_preserves_mem s pkt.1 pkt.2 (a, id) hm), h3⟩

/-- Witness for `onTCP_unique_origin`: two packets for the same destination
starting from the empty map leave at most one origin under that key. -/
theorem onTCP_unique_origin_witness :
    (((processTCPPackets ⟨0, []⟩
        [(⟨"1.2.3.4", 80⟩, true), (⟨"1.2.3.4", 80⟩, true)]).tcpConnTrack.map
          Prod.fst).count ⟨"1.2.3.4", 80⟩) ≤ 1 :=
  (onTCP_unique_origin [(⟨"1.2.3.4", 80⟩, true), (⟨"1.2.3.4", 80⟩, true)]
    ⟨0, []⟩ ⟨"1.2.3.4", 80⟩ 0 (by simp)).2.2

/-- One step a finalizer performs, from the base-connection file: closing
the origin's stack, the caller-supplied map-removal finalizer, draining the
outbound channel endpoint, closing the upstream handle, unregistering the
wait-queue entry, closing the transport endpoint. -/
inductive FinStep where
  | closeStack
  | mapRemoval
  | drainChannel
  | closeUpstream
  | unregisterWait
  | closeEndpoint
deriving DecidableEq, Repr

/-- The finalizer installed by `newBaseConn` (base-connection file lines
57-75): run the caller-supplied finalizer if non-nil, close the upstream
handle if any, unregister the wait-queue entry, close the endpoint if
any. -/
def baseConnFinalizer (callerFinalizer : List FinStep)
    (hasUpstream hasEp : Bool) : List FinStep :=
  callerFinalizer ++
    (if hasUpstream then [FinStep.closeUpstream] else []) ++
    [FinStep.unregisterWait] ++
    (if hasEp then [FinStep.closeEndpoint] else [])

/-- The caller-supplied finalizer closure that `newOrigin` (base-connection
file lines 189-196) passes to `newBaseConn`: close the stack, run the
origin creator's map-removal finalizer if non-nil, drain the outbound
channel endpoint. -/
def newOriginCallerFinalizer (hasMapRemoval : Bool) : List FinStep :=
  FinStep.closeStack ::
    ((if hasMapRemoval then [FinStep.mapRemoval] else []) ++ [FinStep.drainChannel])

/-- The complete finalizer of an origin built by `newOrigin`. -/
def originFinalizer (hasMapRemoval hasUpstream hasEp : Bool) : List FinStep :=
  baseConnFinalizer (newOriginCallerFinalizer hasMapRemoval) hasUpstream hasEp

/-- Modelled from the spec: the three-phase `closeable` lifecycle primitive
(close-request, ready-to-finalize, closed — spec section 4.11) is declared
in a repository file that is not among the provided sources.  Per the spec,
`close()` blocks until `closed` fires and is idempotent, and the
user-supplied finalizer runs exactly once, after which `closed` is
signalled.  The state records which signals have fired and the trace of
finalizer steps executed so far. -/
structure Closeable where
  closeRequested : Bool
  closed : Bool
  executed : List FinStep
deriving DecidableEq, Repr

/-- Modelled from the spec: a freshly constructed closeable, no signal
fired, no finalizer step executed. -/
def Closeable.fresh : Closeable :=
  { closeRequested := false, closed := false, executed := [] }

/-- Modelled from the spec: one `Close()` call — the first call fires
close-request, runs the finalizer and marks closed; any later call sees
`closed` already fired and changes nothing. -/
def Closeable.close (fin : List FinStep) (c : Closeable) : Closeable :=
  if c.closed then c
  else { closeRequested := true, closed := true, executed := c.executed ++ fin }

/-- `n` successive `Close()` calls. -/
def Closeable.closeN (fin : List FinStep) : Nat → Closeable → Closeable
  | 0, c => c
  | n + 1, c => Closeable.closeN fin n (Closeable.close fin c)

/-- Once closed, further `Close()` calls change nothing. -/
theorem Closeable.closeN_fixed (fin : List FinStep) :
    ∀ (m : Nat) (c : Closeable), c.closed = true →
      Closeable.closeN fin m c = c := by
  intro m
  induction m with
  | zero => intro c h; rfl
  | succ k ih =>
      intro c h
      have hfix : Closeable.close fin c = c := by simp [Closeable.close, h]
      simp only [Closeable.closeN, hfix]
      exact ih c h

/-- C5: when an origin with a map-removal finalizer, an upstream handle and
an endpoint is closed — however many times `Close()` is invoked — the
finalizer runs exactly once, executing exactly these steps in this order:
close the stack, run the caller-supplied map-removal finalizer, drain the
outbound channel, close the upstream handle, unregister the wait-queue
entry, close the endpoint. -/
theorem origin_finalizer_once_in_order :
    ∀ n : Nat, 1 ≤ n →
      (Closeable.closeN (originFinalizer true true true) n Closeable.fresh).executed =
        [FinStep.closeStack, FinStep.mapRemoval, FinStep.drainChannel,
         FinStep.closeUpstream, FinStep.unregisterWait, FinStep.closeEndpoint] ∧
      (Closeable.closeN (originFinalizer true true true) n Closeable.fresh).closed =
        true := by
  intro n hn
  obtain ⟨m, rfl⟩ : ∃ m, n = m + 1 := ⟨n - 1, by omega⟩
  have h1 : Closeable.close (originFinalizer true true true) Closeable.fresh =
      { closeRequested := true, closed := true,
        executed := originFinalizer true true true } := by
    simp [Closeable.close, Closeable.fresh]
  have h2 : Closeable.closeN (originFinalizer true true true) (m + 1) Closeable.fresh =
      { closeRequested := true, closed := true,
        executed := originFinalizer true true true } := by
    simp only [Closeable.closeN, h1]
    exact Closeable.closeN_fixed _ m _ rfl
  rw [h2]
  exact ⟨rfl, rfl⟩

/-- Witness for `origin_finalizer_once_in_order`: a double `Close()` still
executes the six steps exactly once, in order. -/
theorem origin_finalizer_once_in_order_witness :
    (Closeable.closeN (originFinalizer true true true) 2 Closeable.fresh).executed =
      [FinStep.closeStack, FinStep.mapRemoval, FinStep.drainChannel,
       FinStep.closeUpstream, FinStep.unregisterWait, FinStep.closeEndpoint] ∧
    (Closeable.closeN (originFinalizer true true true) 2 Closeable.fresh).closed =
      true :=
  origin_finalizer_once_in_order 2 (by omega)

/-- One iteration's environment for the acceptor loop: `ep.Accept()` either
returns `tcpip.ErrWouldBlock`, fails with another error, or succeeds
yielding the downstream remote address (`remote`), in which case `dialOk`
resolves whether the upstream `DialTCP` succeeds. -/
inductive AcceptStep where
  | wouldBlock
  | acceptErr
  | accepted (remote : Nat) (dialOk : Bool)
deriving DecidableEq, Repr

/-- Whether this environment step lets the acceptor loop continue to the
next iteration (WouldBlock retries; a successful accept with a successful
dial installs and continues). -/
def AcceptStep.continues : AcceptStep → Bool
  | AcceptStep.wouldBlock => true
  | AcceptStep.acceptErr => false
  | AcceptStep.accepted _ dialOk => dialOk

/-- Observable acceptor actions: blocking on the wait-queue notifier
channel, the two error logs, and installing a connection into
`dest.conns`. -/
inductive AcceptEvent where
  | waitedOnNotifier
  | loggedAcceptError
  | loggedDialFailure
  | installedConn (remote : Nat)
deriving DecidableEq, Repr

/-- How the acceptor loop ended: still looping when the oracle ran out,
returned after a non-WouldBlock accept error, or returned after an upstream
dial failure. -/
inductive AcceptExit where
  | running
  | acceptFailed
  | dialFailed
deriving DecidableEq, Repr

/-- Observable outcome of the acceptor: the events in order, the key set of
`dest.conns`, and how the loop ended. -/
structure AcceptOut where
  events : List AcceptEvent
  conns : List Nat
  exit : AcceptExit
deriving DecidableEq, Repr

/-- `(*tcpDest).accept` from `tcp.go` lines 74-104: loop — `Accept()`; on
WouldBlock receive from `notifyCh` and retry; on another error log and
return; on success dial upstream, and if the dial fails log and return
(abandoning the accepted flow), otherwise build the connection, start its
pumps and install it in `dest.conns[downstreamAddr]` under `connsMx`. -/
def accept : List AcceptStep → List Nat → AcceptOut
  | [], conns => ⟨[], conns, AcceptExit.running⟩
  | AcceptStep.wouldBlock :: rest, conns =>
      let out := accept rest conns
      ⟨AcceptEvent.waitedOnNotifier :: out.events, out.conns, out.exit⟩
  | AcceptStep.acceptErr :: _, conns =>
      ⟨[AcceptEvent.loggedAcceptError], conns, AcceptExit.acceptFailed⟩
  | AcceptStep.accepted remote dialOk :: rest, conns =>
      if dialOk then
        let conns2 := if remote ∈ conns then conns else conns ++ [remote]
        let out := accept rest conns2
        ⟨AcceptEvent.installedConn remote :: out.events, out.conns, out.exit⟩
      else
        ⟨[AcceptEvent.loggedDialFailure], conns, AcceptExit.dialFailed⟩

/-- C6: in the acceptor loop, every WouldBlock waits on the wait-queue
notifier and retries (one wait per WouldBlock, and the loop runs on), and
when the upstream dial fails for an accepted flow the failure is logged,
the acceptor terminates abandoning that accept, and no connection for that
flow is installed in the destination's client map. -/
theorem accept_dial_failure :
    ∀ (pre : List AcceptStep) (r : Nat) (rest : List AcceptStep)
      (conns0 : List Nat),
      (∀ s ∈ pre, s.continues = true) →
      r ∉ conns0 →
      (∀ dialOk, AcceptStep.accepted r dialOk ∉ pre) →
      (accept (pre ++ AcceptStep.accepted r false :: rest) conns0).exit =
          AcceptExit.dialFailed ∧
      AcceptEvent.loggedDialFailure ∈
          (accept (pre ++ AcceptStep.accepted r false :: rest) conns0).events ∧
      r ∉ (accept (pre ++ AcceptStep.accepted r false :: rest) conns0).conns ∧
      ((accept (pre ++ AcceptStep.accepted r false :: rest) conns0).events.count
          AcceptEvent.waitedOnNotifier) =
        pre.countP (fun s => decide (s = AcceptStep.wouldBlock)) := by
  intro pre
  induction pre with
  | nil =>
      intro r rest conns0 _ hr _
      refine ⟨rfl, ?_, hr, ?_⟩
      · simp [accept]
      · simp [accept]
  | cons s pre' ih =>
      intro r rest conns0 hcont hr hnotr
      have hs := hcont s (List.mem_cons_self _ _)
      have hcont' : ∀ t ∈ pre', t.continues = true :=
        fun t ht => hcont t (List.mem_cons_of_mem _ ht)
      have hnotr' : ∀ dialOk, AcceptStep.accepted r dialOk ∉ pre' :=
        fun dialOk hmem => hnotr dialOk (List.mem_cons_of_mem _ hmem)
      cases s with
      | wouldBlock =>
          obtain ⟨h1, h2, h3, h4⟩ := ih r rest conns0 hcont' hr hnotr'
          refine ⟨h1, ?_, h3, ?_⟩
          · simp only [List.cons_append, accept, List.mem_cons]
            exact Or.inr h2
          · simp only [List.cons_append, accept, List.count_cons, List.countP_cons]
            simp [h4]
      | acceptErr => simp [AcceptStep.continues] at hs
      | accepted r2 dialOk =>
          have hdial : dialOk = true := by simpa [AcceptStep.continues] using hs
          subst hdial
          have hner : r ≠ r2 := by
            intro heq
            exact hnotr true (by rw [heq]; exact List.mem_cons_self _ _)
          have hr2 : r ∉ (if r2 ∈ conns0 then conns0 else conns0 ++ [r2]) := by
            by_cases hc : r2 ∈ conns0
            · simpa [hc] using hr
            · simp only [hc, if_false]
              intro hmem
              rcases List.mem_append.mp hmem with hmem | hmem
              · exact hr hmem
              · exact hner (List.mem_singleton.mp hmem)
          obtain ⟨h1, h2, h3, h4⟩ :=
            ih r rest (if r2 ∈ conns0 then conns0 else conns0 ++ [r2]) hcont'
              hr2 hnotr'
          refine ⟨?_, ?_, ?_, ?_⟩
          · simpa [accept] using h1
          · simp only [List.cons_append, accept, if_pos, List.mem_cons]
            exact Or.inr h2
          · simpa [accept] using h3
          · simp only [List.cons_append, accept, List.count_cons, List.countP_cons]
            simp [h4]

/-- Witness for `accept_dial_failure`: a WouldBlock retry, a successful
accept of remote 7, then a dial failure on remote 9 — the acceptor logs,
terminates, and 9 is not in the client map. -/
theorem accept_dial_failure_witness :
    (accept [AcceptStep.wouldBlock, AcceptStep.accepted 7 true,
        AcceptStep.accepted 9 false] []).exit = AcceptExit.dialFailed ∧
    AcceptEvent.loggedDialFailure ∈
      (accept [AcceptStep.wouldBlock, AcceptStep.accepted 7 true,
        AcceptStep.accepted 9 false] []).events ∧
    9 ∉ (accept [AcceptStep.wouldBlock, AcceptStep.accepted 7 true,
        AcceptStep.accepted 9 false] []).conns ∧
    ((accept [AcceptStep.wouldBlock, AcceptStep.accepted 7 true,
        AcceptStep.accepted 9 false] []).events.count
        AcceptEvent.waitedOnNotifier) = 1 :=
  accept_dial_failure [AcceptStep.wouldBlock, AcceptStep.accepted 7 true] 9 [] []
    (by decide) (by decide) (by decide)

/-- One downstream read iteration's environment: a read of bytes that parse
into packet `pkt` or fail to parse, an `io.EOF`, or another read error. -/
inductive ReadStep where
  | readOk (parses : Bool) (pkt : Nat)
  | readEOF
  | readErr
deriving DecidableEq, Repr

/-- Whether the step is a successful read. -/
def ReadStep.isReadOk : ReadStep → Bool
  | ReadStep.readOk _ _ => true
  | _ => false

/-- Whether the step is a successful read of an unparseable packet. -/
def ReadStep.parseFailed : ReadStep → Bool
  | ReadStep.readOk false _ => true
  | _ => false

/-- The packet delivered by a successful read that parses, if any. -/
def ReadStep.parsedPkt : ReadStep → Option Nat
  | ReadStep.readOk true pkt => some pkt
  | _ => none

/-- How `readDownstreamPackets` (and hence `Serve`) returned: with the
`io.EOF` error itself (unwrapped), with a wrapped unexpected-read error, or
still looping when the oracle ran out. -/
inductive ServeExit where
  | eofError
  | wrappedError
  | running
deriving DecidableEq, Repr

/-- Observable outcome of the downstream read loop: how it ended, the
rejected-packet counter, and the packets sent to the demux channel
`pktIn`, in order. -/
structure ReadLoopOut where
  exit : ServeExit
  rejected : Nat
  sent : List Nat
deriving DecidableEq, Repr

/-- `(*proxy).readDownstreamPackets` from `ipproxy.go` lines 191-216: loop —
read into a fresh MTU-sized buffer; on `io.EOF` return the error as is; on
any other read error return a wrapped error; on a parse failure log at
debug, count the packet rejected and continue without sending; otherwise
send the parsed packet on `pktIn`. -/
def readDownstreamPackets : List ReadStep → Nat → List Nat → ReadLoopOut
  | [], rejected, sent => ⟨ServeExit.running, rejected, sent⟩
  | ReadStep.readEOF :: _, rejected, sent => ⟨ServeExit.eofError, rejected, sent⟩
  | ReadStep.readErr :: _, rejected, sent => ⟨ServeExit.wrappedError, rejected, sent⟩
  | ReadStep.readOk parses pkt :: rest, rejected, sent =>
      if parses then readDownstreamPackets rest rejected (sent ++ [pkt])
      else readDownstreamPackets rest (rejected + 1) sent

/-- C7: after any run of successful reads, an EOF terminates the loop with
the unwrapped EOF error and any other read error terminates it with a
wrapped error; along the way each unparseable packet adds exactly 1 to the
rejected counter and sends nothing, while each parsed packet is sent to the
demux channel in order. -/
theorem readDownstreamPackets_error_handling :
    ∀ (pre rest : List ReadStep) (rejected : Nat) (sent : List Nat),
      (∀ s ∈ pre, s.isReadOk = true) →
      (readDownstreamPackets (pre ++ ReadStep.readEOF :: rest) rejected sent =
        ⟨ServeExit.eofError, rejected + pre.countP ReadStep.parseFailed,
         sent ++ pre.filterMap ReadStep.parsedPkt⟩) ∧
      (readDownstreamPackets (pre ++ ReadStep.readErr :: rest) rejected sent =
        ⟨ServeExit.wrappedError, rejected + pre.countP ReadStep.parseFailed,
         sent ++ pre.filterMap ReadStep.parsedPkt⟩) := by
  intro pre
  induction pre with
  | nil =>
      intro rest rejected sent _
      constructor <;> simp [readDownstreamPackets]
  | cons s pre' ih =>
      intro rest rejected sent hok
      have hs := hok s (List.mem_cons_self _ _)
      have hok' : ∀ t ∈ pre', t.isReadOk = true :=
        fun t ht => hok t (List.mem_cons_of_mem _ ht)
      cases s with
      | readOk parses pkt =>
          cases parses with
          | true =>
              have h := ih rest rejected (sent ++ [pkt]) hok'
              constructor
              · rw [List.cons_append,
                  show readDownstreamPackets
                      (ReadStep.readOk true pkt :: (pre' ++ ReadStep.readEOF :: rest))
                      rejected sent =
                    readDownstreamPackets (pre' ++ ReadStep.readEOF :: rest)
                      rejected (sent ++ [pkt]) from by
                    simp [readDownstreamPackets], h.1]
                simp [List.countP_cons, List.filterMap_cons, ReadStep.parseFailed,
                  ReadStep.parsedPkt]
              · rw [List.cons_append,
                  show readDownstreamPackets
                      (ReadStep.readOk true pkt :: (pre' ++ ReadStep.readErr :: rest))
                      rejected sent =
                    readDownstreamPackets (pre' ++ ReadStep.readErr :: rest)
                      rejected (sent ++ [pkt]) from by
                    simp [readDownstreamPackets], h.2]
                simp [List.countP_cons, List.filterMap_cons, ReadStep.parseFailed,
                  ReadStep.parsedPkt]
          | false =>
              have h := ih rest (rejected + 1) sent hok'
              constructor
              · rw [List.cons_append,
                  show readDownstreamPackets
                      (ReadStep.readOk false pkt :: (pre' ++ ReadStep.readEOF :: rest))
                      rejected sent =
                    readDownstreamPackets (pre' ++ ReadStep.readEOF :: rest)
                      (rejected + 1) sent from by
                    simp [readDownstreamPackets], h.1]
                simp only [List.countP_cons, List.filterMap_cons,
                  ReadStep.parseFailed, ReadStep.parsedPkt, ReadLoopOut.mk.injEq,
                  if_true]
                refine ⟨trivial, by omega, trivial⟩
              · rw [List.cons_append,
                  show readDownstreamPackets
                      (ReadStep.readOk false pkt :: (pre' ++ ReadStep.readErr :: rest))
                      rejected sent =
                    readDownstreamPackets (pre' ++ ReadStep.readErr :: rest)
                      (rejected + 1) sent from by
                    simp [readDownstreamPackets], h.2]
                simp only [List.countP_cons, List.filterMap_cons,
                  ReadStep.parseFailed, ReadStep.parsedPkt, ReadLoopOut.mk.injEq,
                  if_true]
                refine ⟨trivial, by omega, trivial⟩
      | readEOF => simp [ReadStep.isReadOk] at hs
      | readErr => simp [ReadStep.isReadOk] at hs

/-- Witness for `readDownstreamPackets_error_handling`: a parsed packet, an
unparseable packet, then EOF — the loop returns the unwrapped EOF with one
rejection and exactly the parsed packet sent. -/
theorem readDownstreamPackets_error_handling_witness :
    readDownstreamPackets [ReadStep.readOk true 5, ReadStep.readOk false 9,
        ReadStep.readEOF] 0 [] = ⟨ServeExit.eofError, 1, [5]⟩ :=
  (readDownstreamPackets_error_handling
    [ReadStep.readOk true 5, ReadStep.readOk false 9] [] 0 [] (by decide)).1

/-- A parsed inbound IP packet as the demultiplexer sees it: its IP
protocol number, its destination address and, for TCP, whether
`startTCPDest` would succeed. -/
structure IpPkt where
  ipProto : Nat
  dst : addr
  createOk : Bool
deriving DecidableEq, Repr

/-- The demux state touched by one packet dispatch: the accepted and
rejected counters, the TCP destination map, and — because `onUDP` and the
ICMP endpoint's internals are outside the claims — the counts of packets
routed to UDP handling and of raw packets injected into the ICMP
endpoint. -/
structure DemuxState where
  acceptedPackets : Nat
  rejectedPackets : Nat
  tcp : TcpTrackState
  udpHandled : Nat
  icmpInjected : Nat
deriving DecidableEq, Repr

/-- The `case pkt := <-p.pktIn` arm of `copyToUpstream`'s select
(`ipproxy.go` lines 230-245): switch on `pkt.ipProto` — TCP counts accepted
and runs `onTCP`; UDP counts accepted and runs `onUDP` (declared in a
repository file not among the provided sources, recorded here as a routed
count); ICMP counts accepted and injects into the ICMP endpoint; any other
protocol counts rejected, logs at debug and continues. -/
def copyToUpstreamStep (s : DemuxState) (pkt : IpPkt) : DemuxState :=
  if pkt.ipProto = IPProtocolTCP then
    { s with acceptedPackets := s.acceptedPackets + 1,
             tcp := onTCP s.tcp pkt.dst pkt.createOk }
  else if pkt.ipProto = IPProtocolUDP then
    { s with acceptedPackets := s.acceptedPackets + 1,
             udpHandled := s.udpHandled + 1 }
  else if pkt.ipProto = IPProtocolICMP then
    { s with acceptedPackets := s.acceptedPackets + 1,
             icmpInjected := s.icmpInjected + 1 }
  else
    { s with rejectedPackets := s.rejectedPackets + 1 }

/-- The demux task consuming a sequence of inbound packets. -/
def demuxPackets (s : DemuxState) : List IpPkt → DemuxState
  | [] => s
  | pkt :: rest => demuxPackets (copyToUpstreamStep s pkt) rest

/-- C8: a packet whose IP protocol is not TCP, UDP or ICMP increments the
rejected counter by exactly 1, leaves the accepted counter, the TCP
destination map, the UDP routing and the ICMP injections unchanged, and
the demux task continues serving the remaining packets. -/
theorem unknown_protocol_rejected :
    ∀ (s : DemuxState) (pkt : IpPkt) (rest : List IpPkt),
      pkt.ipProto ≠ IPProtocolTCP → pkt.ipProto ≠ IPProtocolUDP →
      pkt.ipProto ≠ IPProtocolICMP →
      copyToUpstreamStep s pkt =
        { s with rejectedPackets := s.rejectedPackets + 1 } ∧
      (copyToUpstreamStep s pkt).acceptedPackets = s.acceptedPackets ∧
      (copyToUpstreamStep s pkt).tcp = s.tcp ∧
      (copyToUpstreamStep s pkt).udpHandled = s.udpHandled ∧
      (copyToUpstreamStep s pkt).icmpInjected = s.icmpInjected ∧
      demuxPackets s (pkt :: rest) =
        demuxPackets { s with rejectedPackets := s.rejectedPackets + 1 } rest := by
  intro s pkt rest h6 h17 h1
  have h : copyToUpstreamStep s pkt =
      { s with rejectedPackets := s.rejectedPackets + 1 } := by
    simp [copyToUpstreamStep, h6, h17, h1]
  exact ⟨h, by rw [h], by rw [h], by rw [h], by rw [h], by
    simp only [demuxPackets]; rw [h]⟩

/-- Witness for `unknown_protocol_rejected`: protocol 99 at the fresh demux
state is rejected and nothing else changes. -/
theorem unknown_protocol_rejected_witness :
    copyToUpstreamStep ⟨0, 0, ⟨0, []⟩, 0, 0⟩ ⟨99, ⟨"8.8.8.8", 53⟩, true⟩ =
      ⟨0, 1, ⟨0, []⟩, 0, 0⟩ ∧
    (copyToUpstreamStep ⟨0, 0, ⟨0, []⟩, 0, 0⟩
        ⟨99, ⟨"8.8.8.8", 53⟩, true⟩).acceptedPackets = 0 :=
  ⟨(unknown_protocol_rejected ⟨0, 0, ⟨0, []⟩, 0, 0⟩ ⟨99, ⟨"8.8.8.8", 53⟩, true⟩ []
      (by decide) (by decide) (by decide)).1,
   (unknown_protocol_rejected ⟨0, 0, ⟨0, []⟩, 0, 0⟩ ⟨99, ⟨"8.8.8.8", 53⟩, true⟩ []
      (by decide) (by decide) (by decide)).2.1⟩

/-- C9: For every `Opts` value (including nil, i.e. `none`), `ApplyDefaults`
replaces each unset / zero / negative option with its documented default
(MTU 1500, OutboundBufferDepth 10000, IdleTimeout 65s, TCPConnectBacklog 10,
StatsInterval 15s, net.Dialer-based DialTCP/DialUDP) and leaves every
explicitly set positive option unchanged. -/
theorem applyDefaults_characterization :
    (∀ o : Opts,
      (ApplyDefaults (some o)).MTU = (if o.MTU ≤ 0 then 1500 else o.MTU) ∧
      (ApplyDefaults (some o)).OutboundBufferDepth =
        (if o.OutboundBufferDepth ≤ 0 then 10000 else o.OutboundBufferDepth) ∧
      (ApplyDefaults (some o)).IdleTimeout =
        (if o.IdleTimeout ≤ 0 then 65 * second else o.IdleTimeout) ∧
      (ApplyDefaults (some o)).TCPConnectBacklog =
        (if o.TCPConnectBacklog ≤ 0 then 10 else o.TCPConnectBacklog) ∧
      (ApplyDefaults (some o)).StatsInterval =
        (if o.StatsInterval ≤ 0 then 15 * second else o.StatsInterval) ∧
      (ApplyDefaults (some o)).DialTCP =
        (if o.DialTCP = none then some Dialer.netDialerBased else o.DialTCP) ∧
      (ApplyDefaults (some o)).DialUDP =
        (if o.DialUDP = none then some Dialer.netDialerBased else o.DialUDP)) ∧
    ApplyDefaults none =
      { MTU := 1500, OutboundBufferDepth := 10000, IdleTimeout := 65 * second,
        TCPConnectBacklog := 10, StatsInterval := 15 * second,
        DialTCP := some Dialer.netDialerBased,
        DialUDP := some Dialer.netDialerBased } := by
  constructor
  · intro o
    obtain ⟨mtu, obd, it, tcb, si, dt, du⟩ := o
    unfold ApplyDefaults
    simp only [DefaultMTU, DefaultOutboundBufferDepth, DefaultIdleTimeout,
      DefaultTCPConnectBacklog, DefaultStatsInterval]
    by_cases h1 : mtu ≤ 0 <;> by_cases h2 : obd ≤ 0 <;> by_cases h3 : it ≤ 0 <;>
      by_cases h4 : tcb ≤ 0 <;> by_cases h5 : si ≤ 0 <;>
      by_cases h6 : dt = none <;> by_cases h7 : du = none <;>
      simp [h1, h2, h3, h4, h5, h6, h7]
  · rfl

/-- C10: For every downstream read-writer and every opts argument including
nil, the constructor `New` returns a non-nil Proxy and a nil error; the
proxy's options are the defaulted options, so a nil opts causes no nil
dereference. -/
theorem new_never_fails :
    ∀ (downstream : Nat) (optsIn : Option Opts),
      (New downstream optsIn).1.isSome = true ∧
      (New downstream optsIn).2 = none ∧
      (New downstream optsIn).1 =
        some { opts := ApplyDefaults optsIn, downstream := downstream,
               acceptedPackets := 0, rejectedPackets := 0,
               tcpOriginsEmpty := true, udpConnsEmpty := true } := by
  intro downstream optsIn
  refine ⟨rfl, rfl, rfl⟩

end IpProxy
